import Mathlib

/-!
Verification development for the binary-provisioning logic of
`crates/zed/src/languages/typescript.rs`: the TypeScript and ESLint
language-server adapters (version resolution, idempotent install,
cached-binary lookup, invocation-argument construction).

Paths are modelled as lists of components.  The filesystem is a list of
entries (path plus directory flag).  External capabilities (the node
runtime, the HTTP client) are records of functions; filesystem-mutating
capability calls are explicit `FS → Except String FS` transformers.
Each adapter operation is embedded as a function returning its result,
the filesystem afterwards, and a trace of the capability effects it
performed, in program order.
-/

/-- A filesystem path, as a list of components. -/
abbrev FilePathC := List String

/-- Render a component path the way `PathBuf` renders into an `OsString`
argument. -/
def renderPath (p : FilePathC) : String := String.intercalate "/" p

/-- One filesystem entry: its full path and whether it is a directory. -/
structure FsEntry where
  path : FilePathC
  isDir : Bool
deriving DecidableEq, Repr

/-- The filesystem: a finite list of entries.  The list order gives the
enumeration order of `read_dir`. -/
structure FS where
  entries : List FsEntry
deriving DecidableEq, Repr

/-- Existence check (`fs::metadata(..).is_ok()` / `Path::exists`). -/
def FS.pathExists (fs : FS) (p : FilePathC) : Bool :=
  fs.entries.any (fun e => e.path == p)

/-- `p` is an immediate child of directory `d`. -/
def isChildOf (d p : FilePathC) : Bool :=
  p.length == d.length + 1 && d.isPrefixOf p

/-- `smol::fs::read_dir`: fails when the directory does not exist,
otherwise lists the immediate children in filesystem order. -/
def FS.readDir (fs : FS) (d : FilePathC) : Except String (List FsEntry) :=
  if fs.entries.any (fun e => e.path == d && e.isDir) then
    .ok (fs.entries.filter (fun e => isChildOf d e.path))
  else
    .error "read_dir failed"

/-- Modelled from the spec: `util::fs::remove_matching` (only its callers
are in the sources) removes, recursively, every immediate child of `d`
whose path satisfies the predicate: "remove any sibling entries in the
container directory that do not match the version-specific destination
name". -/
def FS.removeMatching (fs : FS) (d : FilePathC) (pred : FilePathC → Bool) : FS :=
  ⟨fs.entries.filter (fun e =>
      !(isChildOf d (e.path.take (d.length + 1)) &&
        pred (e.path.take (d.length + 1))))⟩

/-- `smol::fs::rename`: every entry under `src` is re-rooted at `dst`. -/
def FS.rename (fs : FS) (src dst : FilePathC) : FS :=
  ⟨fs.entries.map (fun e =>
      if src.isPrefixOf e.path then ⟨dst ++ e.path.drop src.length, e.isDir⟩
      else e)⟩

/-- An archive's contents: entries with paths relative to the unpack
destination. -/
abbrev ArchiveContents := List FsEntry

/-- Modelled from the spec: gzip-decompress plus tar-unpack of a byte
stream into a destination directory ("decompress and unpack it into that
destination") — the destination directory is created and each archive
entry materializes under it. -/
def FS.unpack (fs : FS) (dest : FilePathC) (archive : ArchiveContents) : FS :=
  ⟨fs.entries ++ ⟨dest, true⟩ :: archive.map (fun e => ⟨dest ++ e.path, e.isDir⟩)⟩

/-- `lsp::LanguageServerBinary`: a launcher path and an argument vector. -/
structure LanguageServerBinary where
  path : FilePathC
  arguments : List String
deriving DecidableEq, Repr

/-- `typescript_server_binary_arguments` from the source. -/
def typescript_server_binary_arguments (server_path : FilePathC) : List String :=
  [renderPath server_path, "--stdio", "--tsserver-path", "node_modules/typescript/lib"]

/-- `eslint_server_binary_arguments` from the source. -/
def eslint_server_binary_arguments (server_path : FilePathC) : List String :=
  [renderPath server_path, "--stdio"]

/-- The capability invocations an adapter operation can perform. -/
inductive Effect where
  | metadataCheck (p : FilePathC)
  | npmInstall (dir : FilePathC) (packages : List (String × String))
  | httpGet (url : String)
  | removeMatchingIn (dir : FilePathC)
  | unpackInto (dest : FilePathC)
  | readDirOf (d : FilePathC)
  | renameEntry (src dst : FilePathC)
  | npmSubcommand (dir : FilePathC) (cmd : String) (args : List String)
  | binaryPathQuery
deriving DecidableEq, Repr

/-- The node-runtime capability (`node_runtime::NodeRuntime`), as a record
of deterministic behaviours; installing packages and running npm
subcommands transform the filesystem and may fail. -/
structure NodeRuntime where
  binary_path : Except String FilePathC
  npm_package_latest_version : String → Except String String
  npm_install_packages : FilePathC → List (String × String) → FS → Except String FS
  run_npm_subcommand : FilePathC → String → List String → FS → Except String FS

/-- The HTTP capability: fetching a release URL yields (after the gzip
and tar stages) the archive's contents, or fails. -/
structure HttpClient where
  get : String → Except String ArchiveContents

/-- `TypeScriptVersions` from the source. -/
structure TypeScriptVersions where
  typescript_version : String
  server_version : String
deriving DecidableEq, Repr

/-- `util::github::GitHubLspBinaryVersion`. -/
structure GitHubLspBinaryVersion where
  name : String
  url : String
deriving DecidableEq, Repr

/-- The erased version token (`Box<dyn Any>`): one of the two concrete
version types that ever flow through it. -/
inductive VersionToken where
  | typeScript (v : TypeScriptVersions)
  | gitHub (v : GitHubLspBinaryVersion)
deriving DecidableEq, Repr

/-- `Box<dyn Any>::downcast::<TypeScriptVersions>`. -/
def VersionToken.downcastTypeScript : VersionToken → Option TypeScriptVersions
  | .typeScript v => some v
  | _ => none

/-- `Box<dyn Any>::downcast::<GitHubLspBinaryVersion>`. -/
def VersionToken.downcastGitHub : VersionToken → Option GitHubLspBinaryVersion
  | .gitHub v => some v
  | _ => none

/-- `TypeScriptLspAdapter::OLD_SERVER_PATH`. -/
def TypeScriptLspAdapter.OLD_SERVER_PATH : FilePathC :=
  ["node_modules", "typescript-language-server", "lib", "cli.js"]

/-- `TypeScriptLspAdapter::NEW_SERVER_PATH`. -/
def TypeScriptLspAdapter.NEW_SERVER_PATH : FilePathC :=
  ["node_modules", "typescript-language-server", "lib", "cli.mjs"]

/-- `EsLintLspAdapter::SERVER_PATH`. -/
def EsLintLspAdapter.SERVER_PATH : FilePathC :=
  ["vscode-eslint", "server", "out", "eslintServer.js"]

/-- `TypeScriptLspAdapter::fetch_latest_server_version`: queries the npm
registry for the latest `typescript` and `typescript-language-server`
versions; either failure propagates. -/
def TypeScriptLspAdapter.fetch_latest_server_version (node : NodeRuntime) :
    Except String TypeScriptVersions :=
  match node.npm_package_latest_version "typescript" with
  | .error e => .error e
  | .ok t =>
    match node.npm_package_latest_version "typescript-language-server" with
    | .error e => .error e
    | .ok s => .ok ⟨t, s⟩

/-- `TypeScriptLspAdapter::fetch_server_binary`: if the new-layout server
file is absent, npm-install the pinned packages into the container
directory; then return the node launcher with the TypeScript argument
template. -/
def TypeScriptLspAdapter.fetch_server_binary (node : NodeRuntime)
    (version : TypeScriptVersions) (container_dir : FilePathC) (fs : FS) :
    Except String LanguageServerBinary × FS × List Effect :=
  let server_path := container_dir ++ TypeScriptLspAdapter.NEW_SERVER_PATH
  let pkgs := [("typescript", version.typescript_version),
               ("typescript-language-server", version.server_version)]
  if fs.pathExists server_path then
    match node.binary_path with
    | .error e =>
      (.error e, fs, [.metadataCheck server_path, .binaryPathQuery])
    | .ok p =>
      (.ok ⟨p, typescript_server_binary_arguments server_path⟩, fs,
       [.metadataCheck server_path, .binaryPathQuery])
  else
    match node.npm_install_packages container_dir pkgs fs with
    | .error e =>
      (.error e, fs,
       [.metadataCheck server_path, .npmInstall container_dir pkgs])
    | .ok fs1 =>
      match node.binary_path with
      | .error e =>
        (.error e, fs1,
         [.metadataCheck server_path, .npmInstall container_dir pkgs,
          .binaryPathQuery])
      | .ok p =>
        (.ok ⟨p, typescript_server_binary_arguments server_path⟩, fs1,
         [.metadataCheck server_path, .npmInstall container_dir pkgs,
          .binaryPathQuery])

/-- `TypeScriptLspAdapter::cached_server_binary`: prefer the new layout,
fall back to the old one; any failure (no candidate, launcher lookup
failure) is logged and absorbed into `none`. -/
def TypeScriptLspAdapter.cached_server_binary (node : NodeRuntime)
    (container_dir : FilePathC) (fs : FS) : Option LanguageServerBinary :=
  let old_server_path := container_dir ++ TypeScriptLspAdapter.OLD_SERVER_PATH
  let new_server_path := container_dir ++ TypeScriptLspAdapter.NEW_SERVER_PATH
  if fs.pathExists new_server_path then
    match node.binary_path with
    | .error _ => none
    | .ok p => some ⟨p, typescript_server_binary_arguments new_server_path⟩
  else if fs.pathExists old_server_path then
    match node.binary_path with
    | .error _ => none
    | .ok p => some ⟨p, typescript_server_binary_arguments old_server_path⟩
  else
    none

/-- `EsLintLspAdapter::fetch_server_binary`: if the canonical server file
is absent, prune stale siblings, download and unpack the release archive
into the version-named destination, rename its single top-level directory
to `vscode-eslint`, then npm-install and compile inside it; finally
return the node launcher with the ESLint argument template. -/
def EsLintLspAdapter.fetch_server_binary (node : NodeRuntime) (http : HttpClient)
    (version : GitHubLspBinaryVersion) (container_dir : FilePathC) (fs : FS) :
    Except String LanguageServerBinary × FS × List Effect :=
  let destination_path := container_dir ++ ["vscode-eslint-" ++ version.name]
  let server_path := destination_path ++ EsLintLspAdapter.SERVER_PATH
  if fs.pathExists server_path then
    match node.binary_path with
    | .error e =>
      (.error e, fs, [.metadataCheck server_path, .binaryPathQuery])
    | .ok p =>
      (.ok ⟨p, eslint_server_binary_arguments server_path⟩, fs,
       [.metadataCheck server_path, .binaryPathQuery])
  else
    let fs1 := fs.removeMatching container_dir (fun entry => entry != destination_path)
    let tr1 := [Effect.metadataCheck server_path,
                Effect.removeMatchingIn container_dir]
    match http.get version.url with
    | .error err =>
      (.error ("error downloading release: " ++ err), fs1,
       tr1 ++ [.httpGet version.url])
    | .ok archive =>
      let fs2 := fs1.unpack destination_path archive
      let tr2 := tr1 ++ [Effect.httpGet version.url,
                         Effect.unpackInto destination_path]
      match fs2.readDir destination_path with
      | .error e => (.error e, fs2, tr2 ++ [.readDirOf destination_path])
      | .ok entries =>
        match entries.head? with
        | none =>
          (.error "missing first file", fs2, tr2 ++ [.readDirOf destination_path])
        | some first =>
          let repo_root := destination_path ++ ["vscode-eslint"]
          let fs3 := fs2.rename first.path repo_root
          let tr3 := tr2 ++ [Effect.readDirOf destination_path,
                             Effect.renameEntry first.path repo_root]
          match node.run_npm_subcommand repo_root "install" [] fs3 with
          | .error e =>
            (.error e, fs3, tr3 ++ [.npmSubcommand repo_root "install" []])
          | .ok fs4 =>
            match node.run_npm_subcommand repo_root "run-script" ["compile"] fs4 with
            | .error e =>
              (.error e, fs4,
               tr3 ++ [.npmSubcommand repo_root "install" [],
                       .npmSubcommand repo_root "run-script" ["compile"]])
            | .ok fs5 =>
              match node.binary_path with
              | .error e =>
                (.error e, fs5,
                 tr3 ++ [.npmSubcommand repo_root "install" [],
                         .npmSubcommand repo_root "run-script" ["compile"],
                         .binaryPathQuery])
              | .ok p =>
                (.ok ⟨p, eslint_server_binary_arguments server_path⟩, fs5,
                 tr3 ++ [.npmSubcommand repo_root "install" [],
                         .npmSubcommand repo_root "run-script" ["compile"],
                         .binaryPathQuery])

/-- `EsLintLspAdapter::cached_server_binary`: take the first entry of the
container directory, require it to be a directory, and point at the fixed
relative server path under it; all failures are logged and absorbed into
`none`. -/
def EsLintLspAdapter.cached_server_binary (container_dir : FilePathC) (fs : FS) :
    Option LanguageServerBinary :=
  match fs.readDir container_dir with
  | .error _ => none
  | .ok entries =>
    match entries.head? with
    | none => none
    | some first =>
      if first.isDir then
        some ⟨first.path ++ EsLintLspAdapter.SERVER_PATH, []⟩
      else
        none

/-- `TypeScriptLspAdapter::fetch_server_binary` including the
`version.downcast::<TypeScriptVersions>().unwrap()` line: a `none` result
models the panic of `unwrap` on a token of the wrong concrete type. -/
def TypeScriptLspAdapter.fetch_server_binary_dyn (node : NodeRuntime)
    (version : VersionToken) (container_dir : FilePathC) (fs : FS) :
    Option (Except String LanguageServerBinary × FS × List Effect) :=
  (version.downcastTypeScript).map
    (fun v => TypeScriptLspAdapter.fetch_server_binary node v container_dir fs)

/-- `EsLintLspAdapter::fetch_server_binary` including the
`version.downcast::<GitHubLspBinaryVersion>().unwrap()` line: a `none`
result models the panic of `unwrap` on a token of the wrong concrete
type. -/
def EsLintLspAdapter.fetch_server_binary_dyn (node : NodeRuntime) (http : HttpClient)
    (version : VersionToken) (container_dir : FilePathC) (fs : FS) :
    Option (Except String LanguageServerBinary × FS × List Effect) :=
  (version.downcastGitHub).map
    (fun v => EsLintLspAdapter.fetch_server_binary node http v container_dir fs)

/-- Effects that fetch, install, unpack or build — the work the
idempotence guarantee says a satisfied call never repeats. -/
def Effect.isInstallWork : Effect → Bool
  | .npmInstall _ _ => true
  | .httpGet _ => true
  | .unpackInto _ => true
  | .npmSubcommand _ _ _ => true
  | _ => false

/-! ## Concrete worlds used by witnesses -/

/-- A deterministic node runtime for concrete instantiations. -/
def demoNode : NodeRuntime where
  binary_path := .ok ["usr", "bin", "node"]
  npm_package_latest_version := fun pkg =>
    if pkg == "typescript" then .ok "5.0.0"
    else if pkg == "typescript-language-server" then .ok "4.0.0"
    else .error "unknown package"
  npm_install_packages := fun dir _ fs =>
    .ok ⟨fs.entries ++ [⟨dir ++ TypeScriptLspAdapter.NEW_SERVER_PATH, false⟩]⟩
  run_npm_subcommand := fun _ _ _ fs => .ok fs

/-- A container directory holding both TypeScript server layouts. -/
def demoFsBoth : FS :=
  ⟨[⟨["c"], true⟩,
    ⟨["c"] ++ TypeScriptLspAdapter.OLD_SERVER_PATH, false⟩,
    ⟨["c"] ++ TypeScriptLspAdapter.NEW_SERVER_PATH, false⟩]⟩

/-- An empty container directory (the directory exists, with no entries
under it). -/
def demoFsEmptyDir : FS := ⟨[⟨["c"], true⟩]⟩

/-! ## Claim theorems -/

/-- C9: the invocation builders are pure total functions returning exactly
the fixed per-tool template, with the rendered binary path as the first
element followed by static elements. -/
theorem C9_invocation_builders (p : FilePathC) :
    typescript_server_binary_arguments p =
      [renderPath p, "--stdio", "--tsserver-path", "node_modules/typescript/lib"] ∧
    eslint_server_binary_arguments p = [renderPath p, "--stdio"] ∧
    (typescript_server_binary_arguments p).head? = some (renderPath p) ∧
    (eslint_server_binary_arguments p).head? = some (renderPath p) :=
  ⟨rfl, rfl, rfl, rfl⟩

/-- C1: when both the legacy-layout file and the current-layout file exist
under the same container directory, `cached_server_binary` returns the
current-layout (`cli.mjs`) path. -/
theorem C1_layout_priority (node : NodeRuntime) (container_dir : FilePathC)
    (fs : FS) (p : FilePathC)
    (hnew : fs.pathExists (container_dir ++ TypeScriptLspAdapter.NEW_SERVER_PATH) = true)
    (hbin : node.binary_path = .ok p) :
    TypeScriptLspAdapter.cached_server_binary node container_dir fs =
      some ⟨p, typescript_server_binary_arguments
              (container_dir ++ TypeScriptLspAdapter.NEW_SERVER_PATH)⟩ := by
  simp [TypeScriptLspAdapter.cached_server_binary, hnew, hbin]

/-- C1 witness: a directory holding both layouts resolves to the
current-layout path. -/
theorem C1_layout_priority_witness :
    demoFsBoth.pathExists (["c"] ++ TypeScriptLspAdapter.NEW_SERVER_PATH) = true ∧
    demoFsBoth.pathExists (["c"] ++ TypeScriptLspAdapter.OLD_SERVER_PATH) = true ∧
    TypeScriptLspAdapter.cached_server_binary demoNode ["c"] demoFsBoth =
      some ⟨["usr", "bin", "node"], typescript_server_binary_arguments
              (["c"] ++ TypeScriptLspAdapter.NEW_SERVER_PATH)⟩ :=
  ⟨by decide, by decide,
   C1_layout_priority demoNode ["c"] demoFsBoth ["usr", "bin", "node"] (by decide) rfl⟩

/-- C5: TypeScript version resolution queries the compiler package and the
server package; either failure fails the whole resolution, and a success
carries exactly the two queried versions — never only one. -/
theorem C5_lockstep_version_resolution (node : NodeRuntime) :
    (∀ e, node.npm_package_latest_version "typescript" = .error e →
      TypeScriptLspAdapter.fetch_latest_server_version node = .error e) ∧
    (∀ t e, node.npm_package_latest_version "typescript" = .ok t →
      node.npm_package_latest_version "typescript-language-server" = .error e →
      TypeScriptLspAdapter.fetch_latest_server_version node = .error e) ∧
    (∀ t s, node.npm_package_latest_version "typescript" = .ok t →
      node.npm_package_latest_version "typescript-language-server" = .ok s →
      TypeScriptLspAdapter.fetch_latest_server_version node = .ok ⟨t, s⟩) ∧
    (∀ r, TypeScriptLspAdapter.fetch_latest_server_version node = .ok r →
      node.npm_package_latest_version "typescript" = .ok r.typescript_version ∧
      node.npm_package_latest_version "typescript-language-server" = .ok r.server_version) := by
  refine ⟨fun e he => ?_, fun t e ht he => ?_, fun t s ht hs => ?_, fun r hr => ?_⟩
  · simp [TypeScriptLspAdapter.fetch_latest_server_version, he]
  · simp [TypeScriptLspAdapter.fetch_latest_server_version, ht, he]
  · simp [TypeScriptLspAdapter.fetch_latest_server_version, ht, hs]
  · revert hr
    unfold TypeScriptLspAdapter.fetch_latest_server_version
    cases ht : node.npm_package_latest_version "typescript" with
    | error e => simp
    | ok t =>
      cases hs : node.npm_package_latest_version "typescript-language-server" with
      | error e => simp
      | ok s =>
        intro hr
        simp at hr
        simp [← hr]

/-- C5 witness: both registry queries succeed on the demo runtime and the
resolution carries both versions. -/
theorem C5_lockstep_version_resolution_witness :
    demoNode.npm_package_latest_version "typescript" = .ok "5.0.0" ∧
    demoNode.npm_package_latest_version "typescript-language-server" = .ok "4.0.0" ∧
    TypeScriptLspAdapter.fetch_latest_server_version demoNode = .ok ⟨"5.0.0", "4.0.0"⟩ :=
  ⟨rfl, rfl,
   (C5_lockstep_version_resolution demoNode).2.2.1 "5.0.0" "4.0.0" rfl rfl⟩

/-- C10: each adapter's `fetch_server_binary` panics (modelled as `none`)
on a version token of the other concrete type, and runs normally exactly
on a token of its own concrete type. -/
theorem C10_version_token_downcast (node : NodeRuntime) (http : HttpClient)
    (container_dir : FilePathC) (fs : FS)
    (vts : TypeScriptVersions) (vgh : GitHubLspBinaryVersion) :
    TypeScriptLspAdapter.fetch_server_binary_dyn node (.gitHub vgh) container_dir fs
      = none ∧
    EsLintLspAdapter.fetch_server_binary_dyn node http (.typeScript vts) container_dir fs
      = none ∧
    TypeScriptLspAdapter.fetch_server_binary_dyn node (.typeScript vts) container_dir fs
      = some (TypeScriptLspAdapter.fetch_server_binary node vts container_dir fs) ∧
    EsLintLspAdapter.fetch_server_binary_dyn node http (.gitHub vgh) container_dir fs
      = some (EsLintLspAdapter.fetch_server_binary node http vgh container_dir fs) :=
  ⟨rfl, rfl, rfl, rfl⟩

/-- C4: `cached_server_binary` is total into `Option` and absorbs every
internal failure — no layout candidate present, unreadable or empty
container directory, first entry not a directory — into `none`. -/
theorem C4_find_cached_never_raises (node : NodeRuntime) (container_dir : FilePathC)
    (fs : FS) :
    (fs.pathExists (container_dir ++ TypeScriptLspAdapter.NEW_SERVER_PATH) = false →
      fs.pathExists (container_dir ++ TypeScriptLspAdapter.OLD_SERVER_PATH) = false →
      TypeScriptLspAdapter.cached_server_binary node container_dir fs = none) ∧
    (∀ e, fs.readDir container_dir = .error e →
      EsLintLspAdapter.cached_server_binary container_dir fs = none) ∧
    (fs.readDir container_dir = .ok [] →
      EsLintLspAdapter.cached_server_binary container_dir fs = none) ∧
    (∀ first rest, fs.readDir container_dir = .ok (first :: rest) →
      first.isDir = false →
      EsLintLspAdapter.cached_server_binary container_dir fs = none) := by
  refine ⟨fun hnew hold => ?_, fun e he => ?_, fun hok => ?_,
          fun first rest hok hdir => ?_⟩
  · simp [TypeScriptLspAdapter.cached_server_binary, hnew, hold]
  · simp [EsLintLspAdapter.cached_server_binary, he]
  · simp [EsLintLspAdapter.cached_server_binary, hok]
  · simp [EsLintLspAdapter.cached_server_binary, hok, hdir]

/-- C4 witness: on an existing but empty container directory both lookups
return `none`. -/
theorem C4_find_cached_never_raises_witness :
    demoFsEmptyDir.pathExists (["c"] ++ TypeScriptLspAdapter.NEW_SERVER_PATH) = false ∧
    demoFsEmptyDir.readDir ["c"] = .ok [] ∧
    TypeScriptLspAdapter.cached_server_binary demoNode ["c"] demoFsEmptyDir = none ∧
    EsLintLspAdapter.cached_server_binary ["c"] demoFsEmptyDir = none :=
  ⟨by decide, rfl,
   (C4_find_cached_never_raises demoNode ["c"] demoFsEmptyDir).1 (by decide) (by decide),
   (C4_find_cached_never_raises demoNode ["c"] demoFsEmptyDir).2.2.1 rfl⟩

/-- C6: in the ESLint install path, when the canonical server file is
absent and the post-extraction enumeration of the destination directory
yields no entries, the install fails with "missing first file". -/
theorem C6_missing_first_file (node : NodeRuntime) (http : HttpClient)
    (vgh : GitHubLspBinaryVersion) (container_dir : FilePathC) (fs : FS)
    (archive : ArchiveContents)
    (hex : fs.pathExists
      ((container_dir ++ ["vscode-eslint-" ++ vgh.name]) ++ EsLintLspAdapter.SERVER_PATH)
      = false)
    (hget : http.get vgh.url = .ok archive)
    (hempty : ((fs.removeMatching container_dir
        (fun entry => entry != container_dir ++ ["vscode-eslint-" ++ vgh.name])).unpack
        (container_dir ++ ["vscode-eslint-" ++ vgh.name]) archive).readDir
        (container_dir ++ ["vscode-eslint-" ++ vgh.name]) = .ok []) :
    (EsLintLspAdapter.fetch_server_binary node http vgh container_dir fs).1 =
      .error "missing first file" := by
  simp only [EsLintLspAdapter.fetch_server_binary, hex, Bool.false_eq_true, if_false, hget]
  simp [hempty]

/-- C6 witness: an archive with no contents leads to the
"missing first file" failure. -/
theorem C6_missing_first_file_witness :
    HttpClient.get ⟨fun _ => .ok []⟩ "u" = .ok [] ∧
    (EsLintLspAdapter.fetch_server_binary demoNode ⟨fun _ => .ok []⟩ ⟨"1.0", "u"⟩
      ["c"] demoFsEmptyDir).1 = .error "missing first file" :=
  ⟨rfl,
   C6_missing_first_file demoNode ⟨fun _ => .ok []⟩ ⟨"1.0", "u"⟩ ["c"] demoFsEmptyDir []
     (by decide) rfl rfl⟩

/-- C2: `fetch_server_binary` is idempotent on both adapters.  When the
canonical binary path already exists, the call performs only the
existence check and the launcher lookup — no fetch, install, unpack or
build — leaves the filesystem unchanged and returns the binary.  After a
successful call, a repeat call performs no install work and returns the
identical binary, so the fetch/install sequence runs at most once.  The
hypotheses are the capability postconditions the spec assigns the
install steps: a successful package install (resp. compile step)
materializes the canonical binary path. -/
theorem C2_ensure_installed_idempotent (node : NodeRuntime) (http : HttpClient)
    (vts : TypeScriptVersions) (vgh : GitHubLspBinaryVersion)
    (container_dir : FilePathC) (fs : FS) (p : FilePathC)
    (hbin : node.binary_path = .ok p)
    (hpost : ∀ f f', node.npm_install_packages container_dir
        [("typescript", vts.typescript_version),
         ("typescript-language-server", vts.server_version)] f = .ok f' →
        f'.pathExists (container_dir ++ TypeScriptLspAdapter.NEW_SERVER_PATH) = true)
    (hcompile : ∀ f f', node.run_npm_subcommand
        ((container_dir ++ ["vscode-eslint-" ++ vgh.name]) ++ ["vscode-eslint"])
        "run-script" ["compile"] f = .ok f' →
        f'.pathExists ((container_dir ++ ["vscode-eslint-" ++ vgh.name]) ++
          EsLintLspAdapter.SERVER_PATH) = true) :
    (fs.pathExists (container_dir ++ TypeScriptLspAdapter.NEW_SERVER_PATH) = true →
      TypeScriptLspAdapter.fetch_server_binary node vts container_dir fs =
        (.ok ⟨p, typescript_server_binary_arguments
            (container_dir ++ TypeScriptLspAdapter.NEW_SERVER_PATH)⟩, fs,
         [.metadataCheck (container_dir ++ TypeScriptLspAdapter.NEW_SERVER_PATH),
          .binaryPathQuery])) ∧
    (fs.pathExists ((container_dir ++ ["vscode-eslint-" ++ vgh.name]) ++
        EsLintLspAdapter.SERVER_PATH) = true →
      EsLintLspAdapter.fetch_server_binary node http vgh container_dir fs =
        (.ok ⟨p, eslint_server_binary_arguments
            ((container_dir ++ ["vscode-eslint-" ++ vgh.name]) ++
              EsLintLspAdapter.SERVER_PATH)⟩, fs,
         [.metadataCheck ((container_dir ++ ["vscode-eslint-" ++ vgh.name]) ++
            EsLintLspAdapter.SERVER_PATH), .binaryPathQuery])) ∧
    (∀ b fs1 t1, TypeScriptLspAdapter.fetch_server_binary node vts container_dir fs =
        (.ok b, fs1, t1) →
      TypeScriptLspAdapter.fetch_server_binary node vts container_dir fs1 =
        (.ok b, fs1,
         [.metadataCheck (container_dir ++ TypeScriptLspAdapter.NEW_SERVER_PATH),
          .binaryPathQuery]) ∧
      t1.countP Effect.isInstallWork ≤ 1) ∧
    (∀ b fs1 t1, EsLintLspAdapter.fetch_server_binary node http vgh container_dir fs =
        (.ok b, fs1, t1) →
      EsLintLspAdapter.fetch_server_binary node http vgh container_dir fs1 =
        (.ok b, fs1,
         [.metadataCheck ((container_dir ++ ["vscode-eslint-" ++ vgh.name]) ++
            EsLintLspAdapter.SERVER_PATH), .binaryPathQuery]) ∧
      t1.countP (fun e => match e with | .httpGet _ => true | _ => false) ≤ 1) := by
  refine ⟨fun hex => ?_, fun hex => ?_, fun b fs1 t1 hcall => ?_, fun b fs1 t1 hcall => ?_⟩
  · simp only [TypeScriptLspAdapter.fetch_server_binary]
    rw [hbin, if_pos hex]
  · simp only [EsLintLspAdapter.fetch_server_binary]
    rw [hbin, if_pos hex]
  · simp only [TypeScriptLspAdapter.fetch_server_binary] at hcall ⊢
    rw [hbin] at hcall ⊢
    split at hcall
    · rename_i hex
      simp only [Prod.mk.injEq, Except.ok.injEq] at hcall
      obtain ⟨hb, hfs1, ht1⟩ := hcall
      subst hb; subst hfs1; subst ht1
      rw [if_pos hex]
      exact ⟨rfl, by simp [List.countP_cons, List.countP_nil, Effect.isInstallWork]⟩
    · rename_i hex
      split at hcall
      · simp at hcall
      · rename_i fsi heq
        simp only [Prod.mk.injEq, Except.ok.injEq] at hcall
        obtain ⟨hb, hfs1, ht1⟩ := hcall
        subst hb; subst hfs1; subst ht1
        have hx := hpost fs fsi heq
        rw [if_pos hx]
        exact ⟨rfl, by simp [List.countP_cons, List.countP_nil, Effect.isInstallWork]⟩
  · simp only [EsLintLspAdapter.fetch_server_binary] at hcall ⊢
    rw [hbin] at hcall ⊢
    split at hcall
    · rename_i hex2
      simp only [Prod.mk.injEq, Except.ok.injEq] at hcall
      obtain ⟨hb, hfs1, ht1⟩ := hcall
      subst hb; subst hfs1; subst ht1
      rw [if_pos hex2]
      exact ⟨rfl, by simp [List.countP_cons, List.countP_nil]⟩
    · rename_i hex2
      split at hcall
      · simp at hcall
      · rename_i archive hget
        split at hcall
        · simp at hcall
        · rename_i entries hrd
          split at hcall
          · simp at hcall
          · rename_i first hfirst
            split at hcall
            · simp at hcall
            · rename_i fs4 hnpm1
              split at hcall
              · simp at hcall
              · rename_i fs5 hnpm2
                simp only [Prod.mk.injEq, Except.ok.injEq] at hcall
                obtain ⟨hb, hfs1, ht1⟩ := hcall
                subst hb; subst hfs1; subst ht1
                have hx := hcompile fs4 fs5 hnpm2
                rw [if_pos hx]
                refine ⟨rfl, ?_⟩
                simp [List.countP_append, List.countP_cons, List.countP_nil]

/-- A node runtime whose npm steps materialize the expected outputs:
package install creates the TypeScript server file, and the compile
subcommand creates `server/out/eslintServer.js` under its directory. -/
def demoNodeBuild : NodeRuntime where
  binary_path := .ok ["usr", "bin", "node"]
  npm_package_latest_version := fun _ => .error "offline"
  npm_install_packages := fun dir _ fs =>
    .ok ⟨fs.entries ++ [⟨dir ++ TypeScriptLspAdapter.NEW_SERVER_PATH, false⟩]⟩
  run_npm_subcommand := fun dir cmd _ fs =>
    if cmd == "run-script" then
      .ok ⟨fs.entries ++ [⟨dir ++ ["server", "out", "eslintServer.js"], false⟩]⟩
    else
      .ok fs

/-- An HTTP client that always fails; the satisfied install path never
consults it. -/
def demoHttpOffline : HttpClient := ⟨fun _ => .error "offline"⟩

/-- A container directory already holding both adapters' canonical
binaries. -/
def c2FsSatisfied : FS :=
  ⟨[⟨["c"], true⟩,
    ⟨["c"] ++ TypeScriptLspAdapter.NEW_SERVER_PATH, false⟩,
    ⟨(["c"] ++ ["vscode-eslint-" ++ "2.2.2"]) ++ EsLintLspAdapter.SERVER_PATH, false⟩]⟩

/-- C2 witness: on an already-satisfied container directory, both
adapters' installs perform only the existence check and the launcher
lookup, leave the filesystem unchanged, and return the binary. -/
theorem C2_ensure_installed_idempotent_witness :
    c2FsSatisfied.pathExists (["c"] ++ TypeScriptLspAdapter.NEW_SERVER_PATH) = true ∧
    c2FsSatisfied.pathExists
      ((["c"] ++ ["vscode-eslint-" ++ "2.2.2"]) ++ EsLintLspAdapter.SERVER_PATH) = true ∧
    TypeScriptLspAdapter.fetch_server_binary demoNodeBuild ⟨"5.0.0", "4.0.0"⟩ ["c"]
        c2FsSatisfied =
      (.ok ⟨["usr", "bin", "node"], typescript_server_binary_arguments
          (["c"] ++ TypeScriptLspAdapter.NEW_SERVER_PATH)⟩, c2FsSatisfied,
       [.metadataCheck (["c"] ++ TypeScriptLspAdapter.NEW_SERVER_PATH), .binaryPathQuery]) ∧
    EsLintLspAdapter.fetch_server_binary demoNodeBuild demoHttpOffline ⟨"2.2.2", "u"⟩ ["c"]
        c2FsSatisfied =
      (.ok ⟨["usr", "bin", "node"], eslint_server_binary_arguments
          ((["c"] ++ ["vscode-eslint-" ++ "2.2.2"]) ++ EsLintLspAdapter.SERVER_PATH)⟩,
       c2FsSatisfied,
       [.metadataCheck ((["c"] ++ ["vscode-eslint-" ++ "2.2.2"]) ++
          EsLintLspAdapter.SERVER_PATH), .binaryPathQuery]) := by
  have hpost : ∀ f f', demoNodeBuild.npm_install_packages ["c"]
      [("typescript", "5.0.0"), ("typescript-language-server", "4.0.0")] f = .ok f' →
      f'.pathExists (["c"] ++ TypeScriptLspAdapter.NEW_SERVER_PATH) = true := by
    intro f f' h
    simp only [demoNodeBuild, Except.ok.injEq] at h
    subst h
    simp [FS.pathExists, List.any_append]
  have hcompile : ∀ f f', demoNodeBuild.run_npm_subcommand
      ((["c"] ++ ["vscode-eslint-" ++ "2.2.2"]) ++ ["vscode-eslint"])
      "run-script" ["compile"] f = .ok f' →
      f'.pathExists ((["c"] ++ ["vscode-eslint-" ++ "2.2.2"]) ++
        EsLintLspAdapter.SERVER_PATH) = true := by
    intro f f' h
    simp only [demoNodeBuild, Except.ok.injEq] at h
    rw [if_pos (by decide)] at h
    simp only [Except.ok.injEq] at h
    subst h
    have hp : (((["c"] ++ ["vscode-eslint-" ++ "2.2.2"]) ++ ["vscode-eslint"]) ++
        ["server", "out", "eslintServer.js"]) =
        ((["c"] ++ ["vscode-eslint-" ++ "2.2.2"]) ++ EsLintLspAdapter.SERVER_PATH) := by
      decide
    simp [FS.pathExists, List.any_append, hp, EsLintLspAdapter.SERVER_PATH]
  have h := C2_ensure_installed_idempotent demoNodeBuild demoHttpOffline
    ⟨"5.0.0", "4.0.0"⟩ ⟨"2.2.2", "u"⟩ ["c"] c2FsSatisfied ["usr", "bin", "node"]
    rfl hpost hcompile
  exact ⟨by decide, by decide, h.1 (by decide), h.2.1 (by decide)⟩

/-- After `removeMatching`, no entry survives under an immediate child of
`d` whose path satisfies the predicate. -/
theorem removeMatching_no_prefix (fs : FS) (d : FilePathC) (pred : FilePathC → Bool)
    (q : FilePathC) (hq : isChildOf d q = true) (hpred : pred q = true) :
    ∀ e ∈ (fs.removeMatching d pred).entries, q.isPrefixOf e.path = false := by
  intro e he
  rw [FS.removeMatching] at he
  simp only [List.mem_filter] at he
  obtain ⟨-, hkeep⟩ := he
  by_contra hpre
  rw [Bool.not_eq_false] at hpre
  have hlen : q.length = d.length + 1 := by
    have h2 := (Bool.and_eq_true _ _).mp hq
    simpa using h2.1
  have htake : e.path.take (d.length + 1) = q := by
    have hq2 : q <+: e.path := List.isPrefixOf_iff_prefix.mp hpre
    have := List.prefix_iff_eq_take.mp hq2
    rw [← hlen, ← this]
  rw [htake, hq, hpred] at hkeep
  simp at hkeep

/-- After `removeMatching`, an immediate child of `d` whose path satisfies
the predicate no longer exists. -/
theorem removeMatching_pathExists_false (fs : FS) (d : FilePathC)
    (pred : FilePathC → Bool) (q : FilePathC)
    (hq : isChildOf d q = true) (hpred : pred q = true) :
    (fs.removeMatching d pred).pathExists q = false := by
  rw [FS.pathExists]
  by_contra h
  rw [Bool.not_eq_false, List.any_eq_true] at h
  obtain ⟨e, he, heq⟩ := h
  have hfalse := removeMatching_no_prefix fs d pred q hq hpred e he
  have hqq : q.isPrefixOf q = true := List.isPrefixOf_iff_prefix.mpr (List.prefix_refl q)
  rw [eq_of_beq heq, hqq] at hfalse
  simp at hfalse

/-- C7: in the ESLint install path with the canonical binary absent, the
stale-sibling cleanup runs before the archive download (trace order), the
filesystem handed to the download step is exactly the cleaned one, and
the cleaned filesystem holds nothing at or under any sibling of the
version-specific destination — in particular a previous version's
destination directory is gone. -/
theorem C7_stale_cleanup (node : NodeRuntime) (http : HttpClient)
    (vgh : GitHubLspBinaryVersion) (container_dir : FilePathC) (fs : FS)
    (q : FilePathC)
    (hex : fs.pathExists ((container_dir ++ ["vscode-eslint-" ++ vgh.name]) ++
      EsLintLspAdapter.SERVER_PATH) = false)
    (hq : isChildOf container_dir q = true)
    (hne : q ≠ container_dir ++ ["vscode-eslint-" ++ vgh.name]) :
    ((EsLintLspAdapter.fetch_server_binary node http vgh container_dir fs).2.2.take 3 =
      [.metadataCheck ((container_dir ++ ["vscode-eslint-" ++ vgh.name]) ++
         EsLintLspAdapter.SERVER_PATH),
       .removeMatchingIn container_dir, .httpGet vgh.url]) ∧
    (∀ err, http.get vgh.url = .error err →
      (EsLintLspAdapter.fetch_server_binary node http vgh container_dir fs).2.1 =
        fs.removeMatching container_dir
          (fun entry => entry != container_dir ++ ["vscode-eslint-" ++ vgh.name])) ∧
    (∀ e ∈ (fs.removeMatching container_dir
        (fun entry => entry != container_dir ++ ["vscode-eslint-" ++ vgh.name])).entries,
      q.isPrefixOf e.path = false) ∧
    (fs.removeMatching container_dir
        (fun entry => entry != container_dir ++ ["vscode-eslint-" ++ vgh.name])).pathExists q
      = false := by
  have hpred : (fun entry => entry != container_dir ++ ["vscode-eslint-" ++ vgh.name]) q
      = true := by
    simp [hne]
  refine ⟨?_, ?_, removeMatching_no_prefix _ _ _ _ hq hpred,
    removeMatching_pathExists_false _ _ _ _ hq hpred⟩
  · simp only [EsLintLspAdapter.fetch_server_binary]
    rw [if_neg (by rw [hex]; decide)]
    split
    · rfl
    · split
      · rfl
      · split
        · rfl
        · split
          · rfl
          · split
            · rfl
            · split <;> rfl
  · intro err herr
    simp only [EsLintLspAdapter.fetch_server_binary]
    rw [if_neg (by rw [hex]; decide), herr]

/-- A container directory holding only version 1.1.1's destination. -/
def c7FsV1 : FS :=
  ⟨[⟨["c"], true⟩,
    ⟨["c", "vscode-eslint-1.1.1"], true⟩,
    ⟨["c", "vscode-eslint-1.1.1", "old"], false⟩]⟩

/-- C7 witness: installing 2.2.2 over a directory holding only 1.1.1's
destination prunes it before the download, and it is gone from the
cleaned state. -/
theorem C7_stale_cleanup_witness :
    c7FsV1.pathExists ((["c"] ++ ["vscode-eslint-" ++ "2.2.2"]) ++
      EsLintLspAdapter.SERVER_PATH) = false ∧
    isChildOf ["c"] ["c", "vscode-eslint-1.1.1"] = true ∧
    ((EsLintLspAdapter.fetch_server_binary demoNode demoHttpOffline ⟨"2.2.2", "u"⟩
        ["c"] c7FsV1).2.2.take 3 =
      [.metadataCheck ((["c"] ++ ["vscode-eslint-" ++ "2.2.2"]) ++
         EsLintLspAdapter.SERVER_PATH),
       .removeMatchingIn ["c"], .httpGet "u"]) ∧
    (c7FsV1.removeMatching ["c"]
        (fun entry => entry != ["c"] ++ ["vscode-eslint-" ++ "2.2.2"])).pathExists
      ["c", "vscode-eslint-1.1.1"] = false := by
  have h := C7_stale_cleanup demoNode demoHttpOffline ⟨"2.2.2", "u"⟩ ["c"] c7FsV1
    ["c", "vscode-eslint-1.1.1"] (by decide) (by decide) (by decide)
  exact ⟨by decide, by decide, h.1, h.2.2.2⟩

/-- Unpacking an archive whose top-level holds a single directory `w`
(with everything else strictly deeper) into a destination that had no
prior contents makes the destination enumerate to exactly that one
subdirectory. -/
theorem unpack_readDir_singleTop (fs : FS) (dest : FilePathC) (w : String)
    (rest : ArchiveContents)
    (hfs : ∀ e ∈ fs.entries, dest.isPrefixOf e.path = false)
    (hrest : ∀ e ∈ rest, 2 ≤ e.path.length) :
    (fs.unpack dest (⟨[w], true⟩ :: rest)).readDir dest = .ok [⟨dest ++ [w], true⟩] := by
  rw [FS.unpack, FS.readDir]
  have hdir : (fs.entries ++ ⟨dest, true⟩ ::
      (⟨[w], true⟩ :: rest : ArchiveContents).map
        (fun e => (⟨dest ++ e.path, e.isDir⟩ : FsEntry))).any
      (fun e => e.path == dest && e.isDir) = true := by
    simp [List.any_append, List.any_cons]
  rw [if_pos hdir]
  congr 1
  rw [List.map_cons, List.filter_append, List.filter_cons, List.filter_cons]
  have h1 : fs.entries.filter (fun e => isChildOf dest e.path) = [] := by
    rw [List.filter_eq_nil_iff]
    intro e he
    simp [isChildOf, hfs e he]
  have h2 : isChildOf dest dest = false := by
    simp [isChildOf]
  have h3 : isChildOf dest (dest ++ [w]) = true := by
    simp [isChildOf, List.isPrefixOf_iff_prefix, List.prefix_append]
  have h4 : (rest.map (fun e => (⟨dest ++ e.path, e.isDir⟩ : FsEntry))).filter
      (fun e => isChildOf dest e.path) = [] := by
    rw [List.filter_eq_nil_iff]
    intro x hx
    rw [List.mem_map] at hx
    obtain ⟨e, he, rfl⟩ := hx
    have h5 := hrest e he
    simp [isChildOf]
    omega
  rw [h1, h2, h3, h4]
  simp

/-- Renaming `src` to `dst` carries an entry at `src ++ t` to
`dst ++ t`. -/
theorem rename_pathExists_shift (fs : FS) (src dst t : FilePathC)
    (h : fs.pathExists (src ++ t) = true) :
    (fs.rename src dst).pathExists (dst ++ t) = true := by
  rw [FS.pathExists, List.any_eq_true] at h
  obtain ⟨e, he, hbe⟩ := h
  have hpath : e.path = src ++ t := eq_of_beq hbe
  have hpre : src.isPrefixOf e.path = true := by
    rw [hpath]; exact List.isPrefixOf_iff_prefix.mpr (List.prefix_append _ _)
  rw [FS.rename, FS.pathExists, List.any_eq_true]
  refine ⟨⟨dst ++ t, e.isDir⟩, ?_, by simp⟩
  simp only [List.mem_map]
  refine ⟨e, he, ?_⟩
  rw [hpre]
  simp [hpath, List.drop_left]

/-- C8: when the release archive unpacks into a single arbitrarily named
top-level directory (everything else strictly below it), the ESLint
installer renames that directory to the fixed name `vscode-eslint`, so
the canonical binary path under the version-specific destination exists
afterwards and the returned invocation references it.  The npm build
steps are taken as filesystem-preserving. -/
theorem C8_unpack_normalization (node : NodeRuntime) (http : HttpClient)
    (vgh : GitHubLspBinaryVersion) (container_dir : FilePathC) (fs : FS)
    (w : String) (rest : ArchiveContents) (p : FilePathC)
    (hbin : node.binary_path = .ok p)
    (hnpmId : ∀ d c a f, node.run_npm_subcommand d c a f = .ok f)
    (hget : http.get vgh.url = .ok (⟨[w], true⟩ :: rest))
    (hrest : ∀ e ∈ rest, 2 ≤ e.path.length)
    (hfile : (⟨[w, "server", "out", "eslintServer.js"], false⟩ : FsEntry) ∈ rest)
    (hfresh : ∀ e ∈ fs.entries,
      (container_dir ++ ["vscode-eslint-" ++ vgh.name]).isPrefixOf e.path = false) :
    (EsLintLspAdapter.fetch_server_binary node http vgh container_dir fs).1 =
      .ok ⟨p, eslint_server_binary_arguments
        ((container_dir ++ ["vscode-eslint-" ++ vgh.name]) ++
          EsLintLspAdapter.SERVER_PATH)⟩ ∧
    (EsLintLspAdapter.fetch_server_binary node http vgh container_dir fs).2.1.pathExists
      ((container_dir ++ ["vscode-eslint-" ++ vgh.name]) ++ EsLintLspAdapter.SERVER_PATH)
      = true := by
  have hex : fs.pathExists ((container_dir ++ ["vscode-eslint-" ++ vgh.name]) ++
      EsLintLspAdapter.SERVER_PATH) = false := by
    rw [FS.pathExists]
    by_contra hcon
    rw [Bool.not_eq_false, List.any_eq_true] at hcon
    obtain ⟨e, he, hbe⟩ := hcon
    have h1 := hfresh e he
    rw [eq_of_beq hbe] at h1
    have h2 : (container_dir ++ ["vscode-eslint-" ++ vgh.name]).isPrefixOf
        ((container_dir ++ ["vscode-eslint-" ++ vgh.name]) ++
          EsLintLspAdapter.SERVER_PATH) = true :=
      List.isPrefixOf_iff_prefix.mpr (List.prefix_append _ _)
    rw [h2] at h1
    simp at h1
  have hfresh1 : ∀ e ∈ (fs.removeMatching container_dir
      (fun entry => entry != container_dir ++ ["vscode-eslint-" ++ vgh.name])).entries,
      (container_dir ++ ["vscode-eslint-" ++ vgh.name]).isPrefixOf e.path = false := by
    intro e he
    simp only [FS.removeMatching, List.mem_filter] at he
    exact hfresh e he.1
  have hrd := unpack_readDir_singleTop
    (fs.removeMatching container_dir
      (fun entry => entry != container_dir ++ ["vscode-eslint-" ++ vgh.name]))
    (container_dir ++ ["vscode-eslint-" ++ vgh.name]) w rest hfresh1 hrest
  have hsrv2 : ((fs.removeMatching container_dir
      (fun entry => entry != container_dir ++ ["vscode-eslint-" ++ vgh.name])).unpack
      (container_dir ++ ["vscode-eslint-" ++ vgh.name])
      (⟨[w], true⟩ :: rest)).pathExists
      (((container_dir ++ ["vscode-eslint-" ++ vgh.name]) ++ [w]) ++
        ["server", "out", "eslintServer.js"]) = true := by
    rw [FS.unpack, FS.pathExists, List.any_eq_true]
    refine ⟨⟨(container_dir ++ ["vscode-eslint-" ++ vgh.name]) ++
      [w, "server", "out", "eslintServer.js"], false⟩, ?_, by simp⟩
    refine List.mem_append_right _ (List.mem_cons_of_mem _ ?_)
    exact List.mem_map.mpr ⟨⟨[w, "server", "out", "eslintServer.js"], false⟩,
      List.mem_cons_of_mem _ hfile, rfl⟩
  have hsrv3 := rename_pathExists_shift _
    ((container_dir ++ ["vscode-eslint-" ++ vgh.name]) ++ [w])
    ((container_dir ++ ["vscode-eslint-" ++ vgh.name]) ++ ["vscode-eslint"])
    ["server", "out", "eslintServer.js"] hsrv2
  have heq : ((container_dir ++ ["vscode-eslint-" ++ vgh.name]) ++ ["vscode-eslint"]) ++
      ["server", "out", "eslintServer.js"] =
      (container_dir ++ ["vscode-eslint-" ++ vgh.name]) ++ EsLintLspAdapter.SERVER_PATH := by
    simp [EsLintLspAdapter.SERVER_PATH]
  rw [heq] at hsrv3
  constructor
  · simp only [EsLintLspAdapter.fetch_server_binary]
    rw [if_neg (by rw [hex]; decide)]
    simp only [hget, hrd, List.head?_cons, hnpmId, hbin]
  · simp only [EsLintLspAdapter.fetch_server_binary]
    rw [if_neg (by rw [hex]; decide)]
    simp only [hget, hrd, List.head?_cons, hnpmId, hbin]
    exact hsrv3

/-- The non-top-level entries of the demo release archive. -/
def c8Rest : ArchiveContents :=
  [⟨["vscode-eslint-release", "server"], true⟩,
   ⟨["vscode-eslint-release", "server", "out"], true⟩,
   ⟨["vscode-eslint-release", "server", "out", "eslintServer.js"], false⟩]

/-- An HTTP client serving the demo release archive: one arbitrarily
named top-level directory containing the server tree. -/
def c8Http : HttpClient :=
  ⟨fun _ => .ok (⟨["vscode-eslint-release"], true⟩ :: c8Rest)⟩

/-- C8 witness: the demo archive's single top-level directory is renamed
so that the canonical server path exists and is referenced. -/
theorem C8_unpack_normalization_witness :
    (EsLintLspAdapter.fetch_server_binary demoNode c8Http ⟨"2.2.2", "u"⟩ ["c"]
        demoFsEmptyDir).1 =
      .ok ⟨["usr", "bin", "node"], eslint_server_binary_arguments
        ((["c"] ++ ["vscode-eslint-" ++ "2.2.2"]) ++ EsLintLspAdapter.SERVER_PATH)⟩ ∧
    (EsLintLspAdapter.fetch_server_binary demoNode c8Http ⟨"2.2.2", "u"⟩ ["c"]
        demoFsEmptyDir).2.1.pathExists
      ((["c"] ++ ["vscode-eslint-" ++ "2.2.2"]) ++ EsLintLspAdapter.SERVER_PATH) = true :=
  C8_unpack_normalization demoNode c8Http ⟨"2.2.2", "u"⟩ ["c"] demoFsEmptyDir
    "vscode-eslint-release" c8Rest ["usr", "bin", "node"]
    rfl (fun _ _ _ _ => rfl) rfl (by decide) (by decide) (by decide)

/-- Mapping a function that neither changes an element's membership in a
filter nor moves the elements the filter keeps leaves the filter
unchanged. -/
theorem filter_map_invariant {α : Type} (f : α → α) (p : α → Bool) (l : List α)
    (h : ∀ e ∈ l, p (f e) = p e ∧ (p e = true → f e = e)) :
    (l.map f).filter p = l.filter p := by
  induction l with
  | nil => rfl
  | cons a t ih =>
    rw [List.map_cons, List.filter_cons, List.filter_cons]
    have ha := h a (List.mem_cons_self a t)
    have ht : ∀ e ∈ t, p (f e) = p e ∧ (p e = true → f e = e) :=
      fun e he => h e (List.mem_cons_of_mem a he)
    rw [ha.1, ih ht]
    rcases Bool.eq_false_or_eq_true (p a) with hpa | hpa
    · rw [hpa, ha.2 hpa]
    · rw [hpa]; simp

/-- After the stale-sibling cleanup, the container directory has no
immediate children left when the destination was not present to begin
with. -/
theorem cleaned_children_empty (fs : FS) (c : FilePathC) (dname : String)
    (hfresh : ∀ e ∈ fs.entries, (c ++ [dname]).isPrefixOf e.path = false) :
    (fs.removeMatching c (fun entry => entry != c ++ [dname])).entries.filter
      (fun e => isChildOf c e.path) = [] := by
  rw [List.filter_eq_nil_iff]
  intro e he
  simp only [FS.removeMatching, List.mem_filter] at he
  obtain ⟨hmem, hkeep⟩ := he
  intro hchild
  have hlen : e.path.length = c.length + 1 := by
    have h2 := (Bool.and_eq_true _ _).mp hchild
    simpa using h2.1
  have htake : e.path.take (c.length + 1) = e.path :=
    List.take_of_length_le (le_of_eq hlen)
  rw [htake, hchild] at hkeep
  have heq : e.path = c ++ [dname] := by
    by_contra hne
    have hb : (e.path != c ++ [dname]) = true := by simp [hne]
    rw [hb] at hkeep
    simp at hkeep
  have hf := hfresh e hmem
  have hself : (c ++ [dname]).isPrefixOf (c ++ [dname]) = true :=
    List.isPrefixOf_iff_prefix.mpr (List.prefix_refl _)
  rw [heq, hself] at hf
  simp at hf

/-- After cleanup and unpack, the container directory's immediate
children are exactly the version-specific destination directory. -/
theorem unpack_container_children (fs : FS) (c : FilePathC) (dname : String)
    (archive : ArchiveContents)
    (hfresh : ∀ e ∈ fs.entries, (c ++ [dname]).isPrefixOf e.path = false)
    (harch : ∀ e ∈ archive, 1 ≤ e.path.length) :
    ((fs.removeMatching c (fun entry => entry != c ++ [dname])).unpack (c ++ [dname])
      archive).entries.filter (fun e => isChildOf c e.path) = [⟨c ++ [dname], true⟩] := by
  simp only [FS.unpack]
  rw [List.filter_append, List.filter_cons]
  rw [cleaned_children_empty fs c dname hfresh]
  have hdest : isChildOf c (c ++ [dname]) = true := by
    simp [isChildOf, List.isPrefixOf_iff_prefix, List.prefix_append]
  have hmap : (archive.map (fun e => (⟨(c ++ [dname]) ++ e.path, e.isDir⟩ : FsEntry))).filter
      (fun e => isChildOf c e.path) = [] := by
    rw [List.filter_eq_nil_iff]
    intro x hx
    rw [List.mem_map] at hx
    obtain ⟨e, he, rfl⟩ := hx
    have h1 := harch e he
    simp only [isChildOf]
    intro hcon
    have h2 := (Bool.and_eq_true _ _).mp hcon
    have h3 : ((c ++ [dname]) ++ e.path).length = c.length + 1 := by simpa using h2.1
    simp only [List.length_append, List.length_cons, List.length_nil] at h3
    omega
  rw [hdest, hmap]
  simp

/-- Renaming a path strictly below the container's children (to a path of
equal depth) does not change the container directory's immediate
children. -/
theorem rename_filter_children (fs : FS) (c src dst : FilePathC)
    (hlen : src.length = dst.length)
    (hgt : c.length + 1 < src.length) :
    (fs.rename src dst).entries.filter (fun e => isChildOf c e.path) =
      fs.entries.filter (fun e => isChildOf c e.path) := by
  simp only [FS.rename]
  apply filter_map_invariant
  intro e _
  constructor
  · rcases Bool.eq_false_or_eq_true (src.isPrefixOf e.path) with hpre | hpre
    · rw [hpre, if_pos rfl]
      have hple : src.length ≤ e.path.length :=
        (List.isPrefixOf_iff_prefix.mp hpre).length_le
      have h1 : ((dst ++ e.path.drop src.length).length == c.length + 1) = false := by
        rw [beq_eq_false_iff_ne]
        simp only [List.length_append, List.length_drop]
        omega
      have h2 : (e.path.length == c.length + 1) = false := by
        rw [beq_eq_false_iff_ne]
        omega
      simp only [isChildOf, h1, h2, Bool.false_and]
    · rw [hpre]
      simp
  · intro hp
    have hnp : src.isPrefixOf e.path = false := by
      by_contra hcon
      rw [Bool.not_eq_false] at hcon
      have hple := (List.isPrefixOf_iff_prefix.mp hcon).length_le
      have hlen2 : e.path.length = c.length + 1 := by
        have h2 := (Bool.and_eq_true _ _).mp hp
        simpa using h2.1
      omega
    rw [hnp]
    simp

/-- After the full ESLint install pipeline on a container with no prior
destination contents (cleanup, unpack of a single-top-level archive,
rename of the top-level directory), enumerating the container directory
yields exactly the version-specific destination directory. -/
theorem install_final_readDir (fs : FS) (c : FilePathC) (dname w : String)
    (rest : ArchiveContents)
    (hfresh : ∀ e ∈ fs.entries, (c ++ [dname]).isPrefixOf e.path = false)
    (hrest : ∀ e ∈ rest, 2 ≤ e.path.length)
    (hcdir : fs.entries.any (fun e => e.path == c && e.isDir) = true) :
    (((fs.removeMatching c (fun entry => entry != c ++ [dname])).unpack (c ++ [dname])
        (⟨[w], true⟩ :: rest)).rename ((c ++ [dname]) ++ [w])
        ((c ++ [dname]) ++ ["vscode-eslint"])).readDir c =
      .ok [⟨c ++ [dname], true⟩] := by
  rw [List.any_eq_true] at hcdir
  obtain ⟨e0, he0, hp0⟩ := hcdir
  have hpath0 : e0.path = c := by
    have h2 := (Bool.and_eq_true _ _).mp hp0
    exact eq_of_beq h2.1
  have hdir0 : e0.isDir = true := ((Bool.and_eq_true _ _).mp hp0).2
  have hkeep : (!(isChildOf c (e0.path.take (c.length + 1)) &&
      (e0.path.take (c.length + 1) != c ++ [dname]))) = true := by
    rw [hpath0]
    have htake : c.take (c.length + 1) = c :=
      List.take_of_length_le (Nat.le_succ _)
    rw [htake]
    have hcc : isChildOf c c = false := by simp [isChildOf]
    rw [hcc]
    simp
  have hmem1 : e0 ∈ (fs.removeMatching c
      (fun entry => entry != c ++ [dname])).entries := by
    simp only [FS.removeMatching, List.mem_filter]
    exact ⟨he0, hkeep⟩
  have hmem2 : e0 ∈ ((fs.removeMatching c (fun entry => entry != c ++ [dname])).unpack
      (c ++ [dname]) (⟨[w], true⟩ :: rest)).entries := by
    simp only [FS.unpack]
    exact List.mem_append_left _ hmem1
  have hnot : ¬ (((c ++ [dname]) ++ [w]).isPrefixOf e0.path = true) := by
    rw [hpath0]
    intro hcon
    have hle := (List.isPrefixOf_iff_prefix.mp hcon).length_le
    simp only [List.length_append, List.length_cons, List.length_nil] at hle
    omega
  rw [FS.readDir]
  have hdirchk : (((fs.removeMatching c (fun entry => entry != c ++ [dname])).unpack
      (c ++ [dname]) (⟨[w], true⟩ :: rest)).rename ((c ++ [dname]) ++ [w])
      ((c ++ [dname]) ++ ["vscode-eslint"])).entries.any
      (fun e => e.path == c && e.isDir) = true := by
    rw [List.any_eq_true]
    refine ⟨e0, ?_, by rw [hpath0, hdir0]; simp⟩
    simp only [FS.rename, List.mem_map]
    refine ⟨e0, hmem2, ?_⟩
    rw [if_neg hnot]
  rw [if_pos hdirchk]
  congr 1
  rw [rename_filter_children _ c ((c ++ [dname]) ++ [w])
    ((c ++ [dname]) ++ ["vscode-eslint"])
    (by simp) (by simp only [List.length_append, List.length_cons, List.length_nil]; omega)]
  exact unpack_container_children fs c dname (⟨[w], true⟩ :: rest) hfresh
    (by
      intro e he
      rcases List.mem_cons.mp he with rfl | h
      · simp
      · have := hrest e h; omega)

/-- C3 counterexample: for the ESLint adapter, after a successful
`ensure_installed` (which returns the node launcher path with the server
script in its arguments), `find_cached` returns a present result whose
path is the server script itself with empty arguments — not the path
`ensure_installed` returned. -/
theorem C3_miss_then_install_counterexample :
    (EsLintLspAdapter.fetch_server_binary demoNode c8Http ⟨"2.2.2", "u"⟩ ["c"]
        demoFsEmptyDir).1 =
      .ok ⟨["usr", "bin", "node"],
        ["c/vscode-eslint-2.2.2/vscode-eslint/server/out/eslintServer.js", "--stdio"]⟩ ∧
    EsLintLspAdapter.cached_server_binary ["c"]
        (EsLintLspAdapter.fetch_server_binary demoNode c8Http ⟨"2.2.2", "u"⟩ ["c"]
          demoFsEmptyDir).2.1 =
      some ⟨["c", "vscode-eslint-2.2.2", "vscode-eslint", "server", "out",
             "eslintServer.js"], []⟩ ∧
    (["usr", "bin", "node"] : FilePathC) ≠
      ["c", "vscode-eslint-2.2.2", "vscode-eslint", "server", "out", "eslintServer.js"] :=
  ⟨rfl, rfl, by decide⟩

/-- C3 (amended): `find_cached` on an empty container directory is absent
for both adapters.  After a successful `ensure_installed`, the TypeScript
adapter's `find_cached` returns the identical binary; the ESLint
adapter's `find_cached` returns a present result, but it points at the
version-named server script with an empty argument vector (the script
the install's argument vector references), not at the launcher path the
install returned. -/
theorem C3_miss_then_install (node : NodeRuntime) (http : HttpClient)
    (vts : TypeScriptVersions) (vgh : GitHubLspBinaryVersion)
    (container_dir : FilePathC) (fs : FS) (p : FilePathC)
    (w : String) (rest : ArchiveContents)
    (hbin : node.binary_path = .ok p)
    (hpost : ∀ f f', node.npm_install_packages container_dir
        [("typescript", vts.typescript_version),
         ("typescript-language-server", vts.server_version)] f = .ok f' →
        f'.pathExists (container_dir ++ TypeScriptLspAdapter.NEW_SERVER_PATH) = true) :
    (fs.pathExists (container_dir ++ TypeScriptLspAdapter.NEW_SERVER_PATH) = false →
      fs.pathExists (container_dir ++ TypeScriptLspAdapter.OLD_SERVER_PATH) = false →
      TypeScriptLspAdapter.cached_server_binary node container_dir fs = none) ∧
    (fs.readDir container_dir = .ok [] →
      EsLintLspAdapter.cached_server_binary container_dir fs = none) ∧
    (∀ b fs1 t1, TypeScriptLspAdapter.fetch_server_binary node vts container_dir fs =
        (.ok b, fs1, t1) →
      TypeScriptLspAdapter.cached_server_binary node container_dir fs1 = some b) ∧
    ((∀ d c a f, node.run_npm_subcommand d c a f = .ok f) →
      http.get vgh.url = .ok (⟨[w], true⟩ :: rest) →
      (∀ e ∈ rest, 2 ≤ e.path.length) →
      (∀ e ∈ fs.entries,
        (container_dir ++ ["vscode-eslint-" ++ vgh.name]).isPrefixOf e.path = false) →
      fs.entries.any (fun e => e.path == container_dir && e.isDir) = true →
      (EsLintLspAdapter.fetch_server_binary node http vgh container_dir fs).1 =
        .ok ⟨p, eslint_server_binary_arguments
          ((container_dir ++ ["vscode-eslint-" ++ vgh.name]) ++
            EsLintLspAdapter.SERVER_PATH)⟩ ∧
      EsLintLspAdapter.cached_server_binary container_dir
          (EsLintLspAdapter.fetch_server_binary node http vgh container_dir fs).2.1 =
        some ⟨(container_dir ++ ["vscode-eslint-" ++ vgh.name]) ++
          EsLintLspAdapter.SERVER_PATH, []⟩) := by
  refine ⟨fun hnew hold => ?_, fun hok => ?_, fun b fs1 t1 hcall => ?_,
    fun hnpmId hget hrest hfresh hcdir => ?_⟩
  · simp [TypeScriptLspAdapter.cached_server_binary, hnew, hold]
  · simp [EsLintLspAdapter.cached_server_binary, hok]
  · simp only [TypeScriptLspAdapter.fetch_server_binary] at hcall
    rw [hbin] at hcall
    split at hcall
    · rename_i hex
      simp only [Prod.mk.injEq, Except.ok.injEq] at hcall
      obtain ⟨hb, hfs1, ht1⟩ := hcall
      subst hb; subst hfs1
      simp [TypeScriptLspAdapter.cached_server_binary, hex, hbin]
    · rename_i hex
      split at hcall
      · simp at hcall
      · rename_i fsi heq
        simp only [Prod.mk.injEq, Except.ok.injEq] at hcall
        obtain ⟨hb, hfs1, ht1⟩ := hcall
        subst hb; subst hfs1
        have hx := hpost fs fsi heq
        simp [TypeScriptLspAdapter.cached_server_binary, hx, hbin]
  · have hex : fs.pathExists ((container_dir ++ ["vscode-eslint-" ++ vgh.name]) ++
        EsLintLspAdapter.SERVER_PATH) = false := by
      rw [FS.pathExists]
      by_contra hcon
      rw [Bool.not_eq_false, List.any_eq_true] at hcon
      obtain ⟨e, he, hbe⟩ := hcon
      have h1 := hfresh e he
      rw [eq_of_beq hbe] at h1
      have h2 : (container_dir ++ ["vscode-eslint-" ++ vgh.name]).isPrefixOf
          ((container_dir ++ ["vscode-eslint-" ++ vgh.name]) ++
            EsLintLspAdapter.SERVER_PATH) = true :=
        List.isPrefixOf_iff_prefix.mpr (List.prefix_append _ _)
      rw [h2] at h1
      simp at h1
    have hfresh1 : ∀ e ∈ (fs.removeMatching container_dir
        (fun entry => entry != container_dir ++ ["vscode-eslint-" ++ vgh.name])).entries,
        (container_dir ++ ["vscode-eslint-" ++ vgh.name]).isPrefixOf e.path = false := by
      intro e he
      simp only [FS.removeMatching, List.mem_filter] at he
      exact hfresh e he.1
    have hrd := unpack_readDir_singleTop
      (fs.removeMatching container_dir
        (fun entry => entry != container_dir ++ ["vscode-eslint-" ++ vgh.name]))
      (container_dir ++ ["vscode-eslint-" ++ vgh.name]) w rest hfresh1 hrest
    have hfinal := install_final_readDir fs container_dir ("vscode-eslint-" ++ vgh.name)
      w rest hfresh hrest hcdir
    constructor
    · simp only [EsLintLspAdapter.fetch_server_binary]
      rw [if_neg (by rw [hex]; decide)]
      simp only [hget, hrd, List.head?_cons, hnpmId, hbin]
    · simp only [EsLintLspAdapter.fetch_server_binary]
      rw [if_neg (by rw [hex]; decide)]
      simp only [hget, hrd, List.head?_cons, hnpmId, hbin]
      simp only [EsLintLspAdapter.cached_server_binary]
      rw [hfinal]
      simp

/-- C3 (amended) witness: on an empty container both lookups miss; after
the TypeScript install the lookup returns the identical binary; after the
ESLint install the lookup returns the version-named server script with
empty arguments. -/
theorem C3_miss_then_install_witness :
    TypeScriptLspAdapter.cached_server_binary demoNode ["c"] demoFsEmptyDir = none ∧
    EsLintLspAdapter.cached_server_binary ["c"] demoFsEmptyDir = none ∧
    TypeScriptLspAdapter.cached_server_binary demoNode ["c"]
        (TypeScriptLspAdapter.fetch_server_binary demoNode ⟨"5.0.0", "4.0.0"⟩ ["c"]
          demoFsEmptyDir).2.1 =
      some ⟨["usr", "bin", "node"], typescript_server_binary_arguments
        (["c"] ++ TypeScriptLspAdapter.NEW_SERVER_PATH)⟩ ∧
    EsLintLspAdapter.cached_server_binary ["c"]
        (EsLintLspAdapter.fetch_server_binary demoNode c8Http ⟨"2.2.2", "u"⟩ ["c"]
          demoFsEmptyDir).2.1 =
      some ⟨(["c"] ++ ["vscode-eslint-" ++ "2.2.2"]) ++
        EsLintLspAdapter.SERVER_PATH, []⟩ := by
  have hpost : ∀ f f', demoNode.npm_install_packages ["c"]
      [("typescript", "5.0.0"), ("typescript-language-server", "4.0.0")] f = .ok f' →
      f'.pathExists (["c"] ++ TypeScriptLspAdapter.NEW_SERVER_PATH) = true := by
    intro f f' h
    simp only [demoNode, Except.ok.injEq] at h
    subst h
    simp [FS.pathExists, List.any_append]
  have h := C3_miss_then_install demoNode c8Http ⟨"5.0.0", "4.0.0"⟩ ⟨"2.2.2", "u"⟩
    ["c"] demoFsEmptyDir ["usr", "bin", "node"] "vscode-eslint-release" c8Rest rfl hpost
  exact ⟨h.1 (by decide) (by decide), h.2.1 rfl, h.2.2.1 _ _ _ rfl,
    (h.2.2.2 (fun _ _ _ _ => rfl) rfl (by decide) (by decide) (by decide)).2⟩
